import Mathlib

/-
Verification of the sqlds key-value datastore adapter: a shallow embedding of
the Go source (the `Datastore` facade, the transactional `batch`, the
`Queries` provider and the `QueryWithParams` statement composer) together
with proofs of the specified properties.

Modelling conventions:
  * A stored byte is a `Nat`; a Go byte slice `[]byte` is `Option (List Nat)`
    (`none` is the Go `nil` slice, `some l` a present slice, possibly empty).
  * The backing table is an association list of rows in insertion order; the
    effect of each fixed SQL statement issued by the source
    (insert-if-absent, point lookup, octet-length lookup, full scan,
    LIKE-prefix scan with ORDER BY / LIMIT / OFFSET) is given by an
    executable Lean function derived from the statement text in the
    provider together with standard SQL semantics.
  * `database/sql` transactions are a tagged status (`open` / `done`, with
    Exec/Commit/Rollback on a finished transaction reporting ErrTxDone),
    and backend failures and panics are injected through explicit outcome
    parameters, so that rollback-on-failure is provable for every outcome.
  * Batch operations additionally return the trace of backend calls they
    performed, so "no backend call is attempted" is a statement about the
    trace being empty.
-/

namespace SqlDs

/-- A stored value: the content of a present (non-nil) Go byte slice. -/
abbrev Val := List Nat

/-- One table row: (key, data), as created by the put statement. -/
abbrev Row := String × Val

/-- The backing table, rows in insertion order; the backend keeps keys
unique because the put statement is insert-if-absent. -/
abbrev Table := List Row

/-- Errors surfaced by the adapter: `invalidType` is the source's
ErrInvalidType, `notFound` is ds.ErrNotFound, `txDone` is database/sql's
ErrTxDone, and the remaining constructors stand for injected backend
failures at the respective call sites. -/
inductive DsErr where
  | invalidType
  | notFound
  | txDone
  | beginFail
  | backendFail
  | commitFail
deriving DecidableEq, Repr

/-- The entry type produced by a query scan (dsq.Entry: Key, Value). -/
structure Entry where
  Key : String
  Value : Val
deriving DecidableEq, Repr

/-- Turn a table row into a query entry, as the row-scan loop does. -/
def toEntry (r : Row) : Entry := ⟨r.1, r.2⟩

/-- Whether a row with the given key exists: the semantics of the
EXISTS subquery used by the put statement. -/
def hasKey : Table → String → Bool
  | [], _ => false
  | (k2, _) :: rest, k => if k2 = k then true else hasKey rest k

/-- First row with the given key: the semantics of the point-lookup
statements (get / get-size); at most one row matches in a well-formed
table. -/
def lookupRow : Table → String → Option Val
  | [], _ => none
  | (k2, v) :: rest, k => if k2 = k then some v else lookupRow rest k

/-- Effect of the put statement (INSERT ... SELECT $1,$2 WHERE NOT EXISTS):
append the row only when the key is absent; silently keep the table
otherwise. -/
def execPut (t : Table) (k : String) (v : Val) : Table :=
  if hasKey t k then t else t ++ [(k, v)]

/-- Effect of the delete statement: remove every row with the key. -/
def delKey : Table → String → Table
  | [], _ => []
  | (k2, v) :: rest, k => if k2 = k then delKey rest k else (k2, v) :: delKey rest k

/-- The provider capability set (the source's `Queries` interface): nine
dialect-specific statement texts.  The field written `Pfx` is the
provider's prefix-clause operation. -/
structure Queries where
  Delete : String
  Exists : String
  Get : String
  Put : String
  Query : String
  Pfx : String
  Limit : String
  Offset : String
  GetSize : String

/-- The postgres provider (the source's `newQueries`), statement texts
verbatim (\x27 is the single-quote character). -/
def newQueries (tableName : String) : Queries :=
  { Delete := "DELETE FROM " ++ tableName ++ " WHERE key = $1"
    Exists := "SELECT exists(SELECT 1 FROM " ++ tableName ++ " WHERE key=$1)"
    Get := "SELECT data FROM " ++ tableName ++ " WHERE key = $1"
    Put := "INSERT INTO " ++ tableName ++ " (key, data) SELECT $1, $2 WHERE NOT EXISTS ( SELECT key FROM " ++ tableName ++ " WHERE key = $1)"
    Query := "SELECT key, data FROM " ++ tableName
    Pfx := " WHERE key LIKE \x27%s%%\x27 ORDER BY key"
    Limit := " LIMIT %d"
    Offset := " OFFSET %d"
    GetSize := "SELECT octet_length(data) FROM " ++ tableName ++ " WHERE key = $1" }

/-- Character-level model of Go's fmt.Sprintf for the single-argument
format strings the composer uses: %s and %d substitute the (already
rendered) argument, %% is a literal percent sign. -/
def goFmt : List Char → String → List Char
  | [], _ => []
  | '%' :: '%' :: rest, arg => '%' :: goFmt rest arg
  | '%' :: 's' :: rest, arg => arg.data ++ goFmt rest arg
  | '%' :: 'd' :: rest, arg => arg.data ++ goFmt rest arg
  | c :: rest, arg => c :: goFmt rest arg

/-- One-argument fmt.Sprintf on strings. -/
def sprintf1 (fmt arg : String) : String := ⟨goFmt fmt.data arg⟩

/-- The query descriptor (dsq.Query): optional key prefix (`pfx`), limit,
offset, and the client-side filters and orders.  An order compares two
entries (the external library's Order.Compare). -/
structure DsQuery where
  pfx : String
  limit : Nat
  offset : Nat
  filters : List (Entry → Bool)
  orders : List (Entry → Entry → Ordering)

/-- The statement composer (the source's `QueryWithParams` string
construction): starting from the provider's base select-all statement,
append the prefix clause when the prefix is non-empty, then the limit
clause when the limit is non-zero, then the offset clause when the offset
is non-zero. -/
def QueryWithParams (qs : Queries) (q : DsQuery) : String :=
  let qNew := qs.Query
  let qNew := if q.pfx ≠ "" then qNew ++ sprintf1 qs.Pfx q.pfx else qNew
  let qNew := if q.limit ≠ 0 then qNew ++ sprintf1 qs.Limit (toString q.limit) else qNew
  let qNew := if q.offset ≠ 0 then qNew ++ sprintf1 qs.Offset (toString q.offset) else qNew
  qNew

/-- Executable prefix test on character lists. -/
def isPfxOf : List Char → List Char → Bool
  | [], _ => true
  | _ :: _, [] => false
  | a :: as, b :: bs => if a = b then isPfxOf as bs else false

/-- Semantics of the SQL predicate formed by the prefix clause,
key LIKE \x27p%\x27: string-prefix matching.  A prefix containing SQL
wildcard characters is passed through unescaped in the statement text (a
known limitation, visible verbatim in `QueryWithParams`); this row-level
model covers wildcard-free prefixes. -/
def likePfx (p key : String) : Bool := isPfxOf p.data key.data

/-- Codepoint-wise lexicographic order on character lists: the model of
the backend's ORDER BY key collation. -/
def lexLe : List Char → List Char → Bool
  | [], _ => true
  | _ :: _, [] => false
  | a :: as, b :: bs =>
    if a.toNat < b.toNat then true
    else if a.toNat = b.toNat then lexLe as bs
    else false

/-- Key order used by ORDER BY key. -/
def keyLe (a b : String) : Bool := lexLe a.data b.data

/-- Stable insertion into a key-sorted entry list. -/
def insertByKey (e : Entry) : List Entry → List Entry
  | [] => [e]
  | f :: rest => if keyLe e.Key f.Key then e :: f :: rest else f :: insertByKey e rest

/-- Stable sort of entries by key ascending: ORDER BY key. -/
def sortByKey : List Entry → List Entry
  | [] => []
  | e :: rest => insertByKey e (sortByKey rest)

/-- Row set returned by the composed pushdown statement (prefix clause
with ORDER BY key, then OFFSET skips rows before LIMIT counts rows; a
clause is present exactly when its value is non-zero / non-empty). -/
def pushdownRows (t : Table) (q : DsQuery) : List Entry :=
  let rows := sortByKey ((t.filter fun r => likePfx q.pfx r.1).map toEntry)
  let rows := if q.offset ≠ 0 then rows.drop q.offset else rows
  if q.limit ≠ 0 then rows.take q.limit else rows

/-- The raw fetch (the source's `Datastore.RawQuery`): when the descriptor
has a prefix, run the composed pushdown statement; otherwise run the bare
base statement (an unfiltered full scan).  Returns the statement text
passed to the backend together with the scanned entries. -/
def Datastore.RawQuery (t : Table) (qs : Queries) (q : DsQuery) : String × List Entry :=
  if q.pfx ≠ "" then (QueryWithParams qs q, pushdownRows t q)
  else (qs.Query, t.map toEntry)

/-- Client-side filter stage, modelled from the spec's description of the
external result-set library's naive filtering: keep each entry passing
the predicate, in fetch order. -/
def NaiveFilter (entries : List Entry) (f : Entry → Bool) : List Entry :=
  entries.filter f

/-- Lexicographic combination of an order list (first non-equal comparator
decides), as the external library chains Order.Compare results. -/
def ordersCmp (orders : List (Entry → Entry → Ordering)) (a b : Entry) : Ordering :=
  match orders with
  | [] => .eq
  | o :: rest =>
    match o a b with
    | .eq => ordersCmp rest a b
    | r => r

/-- Stable insertion with respect to a comparator. -/
def insertOrd (cmp : Entry → Entry → Ordering) (e : Entry) : List Entry → List Entry
  | [] => [e]
  | f :: rest => if cmp e f = .gt then f :: insertOrd cmp e rest else e :: f :: rest

/-- Stable insertion sort with respect to a comparator. -/
def sortOrd (cmp : Entry → Entry → Ordering) : List Entry → List Entry
  | [] => []
  | e :: rest => insertOrd cmp e (sortOrd cmp rest)

/-- Client-side order stage, modelled from the spec's description of the
external result-set library's naive ordering: with no orders the entries
are returned unchanged, otherwise a full in-memory stable sort keyed by
the order list. -/
def NaiveOrder (entries : List Entry) (orders : List (Entry → Entry → Ordering)) : List Entry :=
  match orders with
  | [] => entries
  | _ :: _ => sortOrd (ordersCmp orders) entries

/-- The query pipeline (the source's `Datastore.Query`): raw fetch, then
each filter applied in descriptor order, then the order stage. -/
def Datastore.Query (t : Table) (qs : Queries) (q : DsQuery) : List Entry :=
  let raw := (Datastore.RawQuery t qs q).2
  NaiveOrder (q.filters.foldl NaiveFilter raw) q.orders

/-- Backend calls observable in a trace: opening a transaction, executing
the put or delete statement, committing, rolling back. -/
inductive BCall where
  | beginTx
  | execPutC (k : String) (v : Val)
  | execDelC (k : String)
  | commitC
  | rollbackC
deriving DecidableEq, Repr

/-- Result of the facade's Put: the returned error, the table afterwards,
and the backend calls made. -/
structure PutResult where
  err : Option DsErr
  table : Table
  calls : List BCall
deriving DecidableEq, Repr

/-- The facade's Put (the source's `Datastore.Put`): a nil value is
rejected with ErrInvalidType before any backend call; otherwise the put
statement (insert-if-absent) is executed. -/
def Datastore.Put (t : Table) (k : String) (value : Option Val) : PutResult :=
  match value with
  | none => ⟨some .invalidType, t, []⟩
  | some v => ⟨none, execPut t k v, [.execPutC k v]⟩

/-- The facade's Get (the source's `Datastore.Get`): point lookup; a
no-rows scan becomes ds.ErrNotFound. -/
def Datastore.Get (t : Table) (k : String) : Except DsErr Val :=
  match lookupRow t k with
  | none => .error .notFound
  | some v => .ok v

/-- The facade's GetSize (the source's `Datastore.GetSize`): octet-length
point lookup; a no-rows scan returns the sentinel size -1 together with
ds.ErrNotFound. -/
def Datastore.GetSize (t : Table) (k : String) : Int × Option DsErr :=
  match lookupRow t k with
  | none => (-1, some .notFound)
  | some v => ((v.length : Int), none)

/-- Status of a database/sql transaction: `open` accepts statements;
`done` (after Commit or Rollback) reports ErrTxDone on every further
Exec/Commit/Rollback. -/
inductive TxnStatus where
  | opened
  | done
deriving DecidableEq, Repr

/-- A transaction handle: the transaction's working view of the table
(the committed table plus the statements executed inside it) and its
status.  Commit installs the view as the committed table; Rollback
discards it. -/
structure Txn where
  view : Table
  status : TxnStatus
deriving DecidableEq, Repr

/-- The state owned by one batch (the source's `batch`): the committed
backend table and the at-most-one transaction handle (`none` until the
first Put/Delete). -/
structure BatchState where
  db : Table
  txn : Option Txn
deriving DecidableEq, Repr

/-- Whether the batch currently holds an open (not yet committed or
rolled back) transaction. -/
def openTxn (s : BatchState) : Bool :=
  match s.txn with
  | some t => t.status = .opened
  | none => false

/-- Outcome injected for one backend statement execution: success, an
error return, or a panic carrying a value. -/
inductive ExecOutcome where
  | ok
  | fail
  | panics (p : Nat)
deriving DecidableEq, Repr

/-- Result of one batch operation: a normal return (error value, state
afterwards, backend-call trace) or a propagated panic. -/
inductive BatchResult where
  | ret (err : Option DsErr) (s : BatchState) (tr : List BCall)
  | panicked (p : Nat) (s : BatchState) (tr : List BCall)
deriving DecidableEq, Repr

/-- State effect of the source's deferred `batch.rollbackTxn err`: nothing
without a transaction; with one, a non-nil error rolls it back (Rollback
on an already-done transaction reports ErrTxDone, which the source
ignores, and leaves it done). -/
def rollbackTxn (s : BatchState) (err : Option DsErr) : BatchState :=
  match s.txn, err with
  | none, _ => s
  | some _, none => s
  | some t, some _ => { s with txn := some { t with status := .done } }

/-- Backend calls made by `batch.rollbackTxn err`: one Rollback exactly
when a transaction exists and the error is non-nil. -/
def rollbackTrace (s : BatchState) (err : Option DsErr) : List BCall :=
  match s.txn, err with
  | none, _ => []
  | some _, none => []
  | some _, some _ => [.rollbackC]

/-- State effect of `batch.rollbackTxn`'s recover branch on the panic
path: the transaction (necessarily present, since the panic arises inside
a statement executed on it) is rolled back before the panic value is
re-raised. -/
def rollbackForPanic (s : BatchState) : BatchState :=
  match s.txn with
  | none => s
  | some t => { s with txn := some { t with status := .done } }

/-- The source's `batch.GetTransaction`: return the existing handle, or
open a new transaction (whose view starts from the committed table) and
store it; a failing Begin is reported without storing a handle.  The
trace records the Begin call when one is attempted. -/
def GetTransaction (beginOk : Bool) (s : BatchState) :
    Except DsErr (Txn × BatchState) × List BCall :=
  match s.txn with
  | some t => (.ok (t, s), [])
  | none =>
    if beginOk then
      (.ok (⟨s.db, .opened⟩, { s with txn := some ⟨s.db, .opened⟩ }), [.beginTx])
    else
      (.error .beginFail, [.beginTx])

/-- The source's `batch.Put` with its deferred `rollbackTxn err` applied
on every exit path: a nil value returns ErrInvalidType (rolling back any
open transaction, since the named error return is non-nil); otherwise the
transaction is acquired lazily and the put statement executed in it, with
an error rollback, or — on a panic during execution — a rollback followed
by re-raising the panic value unchanged. -/
def batch.Put (beginOk : Bool) (x : ExecOutcome) (s : BatchState)
    (k : String) (value : Option Val) : BatchResult :=
  match value with
  | none =>
    .ret (some .invalidType) (rollbackTxn s (some .invalidType))
      (rollbackTrace s (some .invalidType))
  | some v =>
    match GetTransaction beginOk s with
    | (.error e, tr) =>
      .ret (some e) (rollbackTxn s (some e)) (tr ++ rollbackTrace s (some e))
    | (.ok (t, s1), tr) =>
      if t.status = .done then
        .ret (some .txDone) (rollbackTxn s1 (some .txDone))
          (tr ++ [.execPutC k v] ++ rollbackTrace s1 (some .txDone))
      else
        match x with
        | .ok =>
          .ret none { s1 with txn := some ⟨execPut t.view k v, .opened⟩ }
            (tr ++ [.execPutC k v])
        | .fail =>
          .ret (some .backendFail) (rollbackTxn s1 (some .backendFail))
            (tr ++ [.execPutC k v] ++ rollbackTrace s1 (some .backendFail))
        | .panics p =>
          .panicked p (rollbackForPanic s1) (tr ++ [.execPutC k v] ++ [.rollbackC])

/-- The source's `batch.Delete` with its deferred `rollbackTxn err`
applied on every exit path: lazy transaction acquisition, the delete
statement executed in it (deleting an absent key affects zero rows and is
not an error), with the same rollback-on-error and rollback-then-re-panic
policy as `batch.Put`. -/
def batch.Delete (beginOk : Bool) (x : ExecOutcome) (s : BatchState)
    (k : String) : BatchResult :=
  match GetTransaction beginOk s with
  | (.error e, tr) =>
    .ret (some e) (rollbackTxn s (some e)) (tr ++ rollbackTrace s (some e))
  | (.ok (t, s1), tr) =>
    if t.status = .done then
      .ret (some .txDone) (rollbackTxn s1 (some .txDone))
        (tr ++ [.execDelC k] ++ rollbackTrace s1 (some .txDone))
    else
      match x with
      | .ok =>
        .ret none { s1 with txn := some ⟨delKey t.view k, .opened⟩ }
          (tr ++ [.execDelC k])
      | .fail =>
        .ret (some .backendFail) (rollbackTxn s1 (some .backendFail))
          (tr ++ [.execDelC k] ++ rollbackTrace s1 (some .backendFail))
      | .panics p =>
        .panicked p (rollbackForPanic s1) (tr ++ [.execDelC k] ++ [.rollbackC])

/-- The source's `batch.Commit`: with no transaction, a trivial success
touching nothing; with a finished transaction, Commit reports ErrTxDone
and the subsequent Rollback (whose error the source ignores) leaves it
done; with an open transaction, a successful Commit installs the view as
the committed table, and a failing Commit leaves the transaction done
(database/sql marks it done before the driver commit), keeps the
committed table, and performs the source's rollback call. -/
def batch.Commit (commitOk : Bool) (s : BatchState) :
    Option DsErr × BatchState × List BCall :=
  match s.txn with
  | none => (none, s, [])
  | some t =>
    if t.status = .done then
      (some .txDone, s, [.commitC, .rollbackC])
    else if commitOk then
      (none, ⟨t.view, some ⟨t.view, .done⟩⟩, [.commitC])
    else
      (some .commitFail, { s with txn := some { t with status := .done } },
        [.commitC, .rollbackC])

/-- The source's `Datastore.Batch`: a fresh batch over the current table
with no transaction open; construction never fails. -/
def Datastore.Batch (t : Table) : BatchState × Option DsErr :=
  (⟨t, none⟩, none)

/-- Byte content of an ASCII string, for concrete stored values. -/
def bytes (s : String) : Val := s.toList.map Char.toNat

/-- Modelled from the spec: the alternative query path for a prefix
descriptor that the composed pushdown statement replaces — fetch the
unfiltered full scan and apply a client-side key-prefix filter over the
fetched entries. -/
def fullScanClientPfxFilter (t : Table) (p : String) : List Entry :=
  NaiveFilter (t.map toEntry) (fun e => likePfx p e.Key)

/- Helper lemmas about the table primitives and the rollback helpers. -/

theorem hasKey_eq_false {t : Table} {k : String} (h : lookupRow t k = none) :
    hasKey t k = false := by
  induction t with
  | nil => rfl
  | cons r rest ih =>
    obtain ⟨k2, v⟩ := r
    by_cases hk : k2 = k <;> simp [lookupRow, hasKey, hk] at h ⊢ <;> exact ih h

theorem hasKey_append_self (t : Table) (k : String) (v : Val) :
    hasKey (t ++ [(k, v)]) k = true := by
  induction t with
  | nil => simp [hasKey]
  | cons r rest ih =>
    obtain ⟨k2, w⟩ := r
    by_cases hk : k2 = k <;> simp [hasKey, hk] <;> exact ih

theorem lookupRow_append_absent {t : Table} {k : String} (v : Val)
    (h : lookupRow t k = none) : lookupRow (t ++ [(k, v)]) k = some v := by
  induction t with
  | nil => simp [lookupRow]
  | cons r rest ih =>
    obtain ⟨k2, w⟩ := r
    by_cases hk : k2 = k <;> simp [lookupRow, hk] at h ⊢ <;> exact ih h

theorem openTxn_rollbackTxn (s : BatchState) (e : DsErr) :
    openTxn (rollbackTxn s (some e)) = false := by
  cases h : s.txn <;> simp [rollbackTxn, openTxn, h]

theorem db_rollbackTxn (s : BatchState) (err : Option DsErr) :
    (rollbackTxn s err).db = s.db := by
  cases h : s.txn <;> cases err <;> simp [rollbackTxn, h]

theorem openTxn_rollbackForPanic (s : BatchState) :
    openTxn (rollbackForPanic s) = false := by
  cases h : s.txn <;> simp [rollbackForPanic, openTxn, h]

theorem db_rollbackForPanic (s : BatchState) :
    (rollbackForPanic s).db = s.db := by
  cases h : s.txn <;> simp [rollbackForPanic, h]

/- Concrete stores and descriptors used by the evaluated properties. -/

/-- The three-row store named by the pushdown-equivalence property. -/
def exTable : Table := [("a/1", bytes "v1"), ("a/2", bytes "v2"), ("b/1", bytes "v3")]

/-- The descriptor with prefix a/ and nothing else. -/
def exQuery : DsQuery := ⟨"a/", 0, 0, [], []⟩

/-- A two-row store for the windowing behaviour of prefixless queries. -/
def c2Table : Table := [("a", bytes "v1"), ("b", bytes "v2")]

/-- A descriptor with no prefix but a limit of one. -/
def c2Query : DsQuery := ⟨"", 1, 0, [], []⟩

/-- C1: Put is insert-if-absent with first-write-wins semantics — from a
store where the key is absent, Put(k,v1) succeeds, a subsequent Put(k,v2)
of a different value also succeeds without error, leaves the table
unchanged (no overwrite), and Get(k) still returns v1. -/
theorem put_insert_if_absent_first_write_wins
    (t : Table) (k : String) (v1 v2 : Val)
    (hne : v1 ≠ v2) (habs : lookupRow t k = none) :
    (Datastore.Put t k (some v1)).err = none ∧
    (Datastore.Put (Datastore.Put t k (some v1)).table k (some v2)).err = none ∧
    (Datastore.Put (Datastore.Put t k (some v1)).table k (some v2)).table
      = (Datastore.Put t k (some v1)).table ∧
    Datastore.Get (Datastore.Put (Datastore.Put t k (some v1)).table k (some v2)).table k
      = .ok v1 := by
  have h1 : execPut t k v1 = t ++ [(k, v1)] := by
    simp [execPut, hasKey_eq_false habs]
  have h2 : execPut (t ++ [(k, v1)]) k v2 = t ++ [(k, v1)] := by
    simp [execPut, hasKey_append_self]
  refine ⟨rfl, rfl, ?_, ?_⟩
  · simp [Datastore.Put, h1, h2]
  · simp [Datastore.Put, Datastore.Get, h1, h2, lookupRow_append_absent v1 habs]

/-- Witness for C1 at a concrete instance. -/
theorem put_insert_if_absent_first_write_wins_witness :
    (Datastore.Put [] "k" (some [0])).err = none ∧
    (Datastore.Put (Datastore.Put [] "k" (some [0])).table "k" (some [1])).err = none ∧
    (Datastore.Put (Datastore.Put [] "k" (some [0])).table "k" (some [1])).table
      = (Datastore.Put [] "k" (some [0])).table ∧
    Datastore.Get
        (Datastore.Put (Datastore.Put [] "k" (some [0])).table "k" (some [1])).table "k"
      = .ok [0] :=
  put_insert_if_absent_first_write_wins [] "k" [0] [1] (by decide) rfl

/-- C2 (counterexample): with keys a and b stored and a descriptor with
empty prefix and limit one, Query returns both entries — the limit window
is not honored in the returned results; pushing it down would have
returned only the first entry. -/
theorem query_no_pfx_limit_counterexample :
    Datastore.Query c2Table (newQueries "kv") c2Query
      = [⟨"a", bytes "v1"⟩, ⟨"b", bytes "v2"⟩] ∧
    Datastore.Query c2Table (newQueries "kv") c2Query ≠ [⟨"a", bytes "v1"⟩] := by
  constructor <;> decide

/-- C2 (amended): with an empty prefix, Query takes the unfiltered full
scan and applies the descriptor's filters and orders client-side, but
the limit and offset are not applied at all — the result is independent
of them and equals the filtered, ordered full scan. -/
theorem query_no_pfx_ignores_limit_offset
    (t : Table) (qs : Queries) (l o : Nat)
    (fl : List (Entry → Bool)) (ords : List (Entry → Entry → Ordering)) :
    Datastore.Query t qs ⟨"", l, o, fl, ords⟩
      = Datastore.Query t qs ⟨"", 0, 0, fl, ords⟩ ∧
    Datastore.Query t qs ⟨"", l, o, fl, ords⟩
      = NaiveOrder (fl.foldl NaiveFilter (t.map toEntry)) ords := by
  constructor <;> simp [Datastore.Query, Datastore.RawQuery]

/-- C4: on the store with keys a/1, a/2, b/1 and values v1, v2, v3, the
query with prefix "a/" returns exactly the two entries under that prefix
with their values, and the result coincides with the full-scan plus
client-side-filter path. -/
theorem query_pushdown_equivalence_example :
    Datastore.Query exTable (newQueries "kv") exQuery
      = [⟨"a/1", bytes "v1"⟩, ⟨"a/2", bytes "v2"⟩] ∧
    fullScanClientPfxFilter exTable "a/"
      = Datastore.Query exTable (newQueries "kv") exQuery := by
  constructor <;> decide

/-- C7: committing a batch on which no operation was ever invoked
succeeds (error none), opens no transaction (the state is unchanged, the
transaction slot still empty), and performs no backend call (empty
trace); batch construction itself never fails. -/
theorem empty_batch_commit_noop (t : Table) (commitOk : Bool) :
    (Datastore.Batch t).2 = none ∧
    batch.Commit commitOk (Datastore.Batch t).1
      = (none, (Datastore.Batch t).1, []) :=
  ⟨rfl, rfl⟩

/-- C9: GetSize agrees with the stored content — whenever Get returns a
value, GetSize returns its byte length with no error, and whenever Get
reports not-found, GetSize returns the sentinel size -1 together with the
NotFound error. -/
theorem getSize_matches_get (t : Table) (k : String) (v : Val) :
    (Datastore.Get t k = .ok v → Datastore.GetSize t k = ((v.length : Int), none)) ∧
    (Datastore.Get t k = .error .notFound →
      Datastore.GetSize t k = (-1, some .notFound)) := by
  unfold Datastore.Get Datastore.GetSize
  cases h : lookupRow t k <;> simp <;> intro h2 <;> simp [h2]

/-- Witness for C9 at a concrete instance. -/
theorem getSize_matches_get_witness :
    Datastore.GetSize [("a", [5, 6])] "a" = ((2 : Int), none) :=
  (getSize_matches_get [("a", [5, 6])] "a" [5, 6]).1 rfl

/-- C5: for every provider (base query) and descriptor, the composed
statement is the base statement with the prefix clause appended exactly
when the prefix is non-empty, then the limit clause exactly when the
limit is non-zero, then the offset clause exactly when the offset is
non-zero, in that fixed order; the raw fetch passes the composed
statement to the backend exactly when a prefix is given and the bare
base statement otherwise; and for the postgres provider the three clause
templates expand to the expected text (\x27 is the single-quote
character, the descriptor's prefix is substituted unescaped). -/
theorem statement_composition (qs : Queries) (q : DsQuery) (t : Table) :
    QueryWithParams qs q
      = qs.Query ++ (if q.pfx ≠ "" then sprintf1 qs.Pfx q.pfx else "")
        ++ (if q.limit ≠ 0 then sprintf1 qs.Limit (toString q.limit) else "")
        ++ (if q.offset ≠ 0 then sprintf1 qs.Offset (toString q.offset) else "") ∧
    (Datastore.RawQuery t qs q).1
      = (if q.pfx ≠ "" then QueryWithParams qs q else qs.Query) ∧
    sprintf1 (newQueries "kv").Pfx q.pfx
      = " WHERE key LIKE \x27" ++ (q.pfx ++ "%\x27 ORDER BY key") ∧
    sprintf1 (newQueries "kv").Limit (toString q.limit)
      = " LIMIT " ++ toString q.limit ∧
    sprintf1 (newQueries "kv").Offset (toString q.offset)
      = " OFFSET " ++ toString q.offset := by
  refine ⟨?_, ?_, ?_, ?_, ?_⟩
  · unfold QueryWithParams
    split <;> split <;> split <;>
      (apply String.ext; simp [String.data_append])
  · unfold Datastore.RawQuery
    split <;> simp
  · rfl
  · apply String.ext
    show goFmt [' ', 'L', 'I', 'M', 'I', 'T', ' ', '%', 'd'] (toString q.limit)
        = [' ', 'L', 'I', 'M', 'I', 'T', ' '] ++ (toString q.limit).data
    simp [goFmt]
  · apply String.ext
    show goFmt [' ', 'O', 'F', 'F', 'S', 'E', 'T', ' ', '%', 'd'] (toString q.offset)
        = [' ', 'O', 'F', 'F', 'S', 'E', 'T', ' '] ++ (toString q.offset).data
    simp [goFmt]

/-- C3: batch atomicity on every exit path — whatever the injected
backend outcomes, whenever a batch Put, Delete, or Commit returns an
error, the state it leaves behind has no open transaction (the
transaction was rolled back, or none existed) and the committed table is
unchanged; and whenever a batch Put or Delete propagates a panic, the
panic value is the injected one re-raised unchanged, the transaction is
rolled back (Rollback appears in the call trace), and the committed
table is unchanged. -/
theorem batch_failure_rolls_back (beginOk commitOk : Bool) (x : ExecOutcome)
    (s : BatchState) (k : String) (v : Option Val) :
    (∀ e s2 tr, batch.Put beginOk x s k v = .ret (some e) s2 tr →
      openTxn s2 = false ∧ s2.db = s.db) ∧
    (∀ e s2 tr, batch.Delete beginOk x s k = .ret (some e) s2 tr →
      openTxn s2 = false ∧ s2.db = s.db) ∧
    (∀ e s2 tr, batch.Commit commitOk s = (some e, s2, tr) →
      openTxn s2 = false ∧ s2.db = s.db) ∧
    (∀ p s2 tr, batch.Put beginOk x s k v = .panicked p s2 tr →
      x = .panics p ∧ openTxn s2 = false ∧ s2.db = s.db ∧ BCall.rollbackC ∈ tr) ∧
    (∀ p s2 tr, batch.Delete beginOk x s k = .panicked p s2 tr →
      x = .panics p ∧ openTxn s2 = false ∧ s2.db = s.db ∧ BCall.rollbackC ∈ tr) := by
  obtain ⟨db, txn⟩ := s
  refine ⟨?_, ?_, ?_, ?_, ?_⟩ <;>
  · intro a s2 tr h
    rcases txn with _ | ⟨view, st⟩ <;>
      rcases v with _ | v2 <;>
      cases beginOk <;> cases commitOk <;> cases x <;>
      (try cases st) <;>
      simp_all [batch.Put, batch.Delete, batch.Commit, GetTransaction, rollbackTxn,
        rollbackTrace, rollbackForPanic, openTxn] <;>
      (obtain ⟨h1, h2, h3⟩ := h; subst h2; (try subst h3); simp_all)

/-- Witness for C3 at a concrete failing Put. -/
theorem batch_failure_rolls_back_witness :
    openTxn ⟨[], some ⟨[], .done⟩⟩ = false ∧
    BatchState.db ⟨[], some ⟨[], .done⟩⟩ = BatchState.db ⟨[], none⟩ :=
  (batch_failure_rolls_back true true .fail ⟨[], none⟩ "k" (some [1])).1
    .backendFail ⟨[], some ⟨[], .done⟩⟩
    [.beginTx, .execPutC "k" [1], .rollbackC] rfl

/-- C6 (counterexample): on a batch whose transaction is already open,
Put of an absent value does return InvalidValue, but a backend call is
attempted before the error is returned — the deferred rollback issues a
Rollback (and terminates the transaction), so the call trace is not
empty. -/
theorem absent_value_rejection_counterexample :
    batch.Put true .ok ⟨[("a", [1])], some ⟨[("a", [1]), ("x", [2])], .opened⟩⟩ "k" none
      = .ret (some .invalidType)
          ⟨[("a", [1])], some ⟨[("a", [1]), ("x", [2])], .done⟩⟩ [.rollbackC] ∧
    ([BCall.rollbackC] : List BCall) ≠ [] :=
  ⟨rfl, by decide⟩

/-- C6 (amended): Put of an absent value fails with InvalidValue in both
the facade and the batch and never attempts the put statement, and the
committed data is unchanged; the facade makes no backend call at all, as
does a batch with no transaction yet, while a batch holding a
transaction performs exactly the deferred Rollback call before the error
is returned. -/
theorem absent_value_rejection_amended (t : Table) (k : String)
    (beginOk : Bool) (x : ExecOutcome) (s : BatchState) :
    Datastore.Put t k none = ⟨some .invalidType, t, []⟩ ∧
    batch.Put beginOk x s k none
      = .ret (some .invalidType) (rollbackTxn s (some .invalidType))
          (rollbackTrace s (some .invalidType)) ∧
    (rollbackTxn s (some .invalidType)).db = s.db ∧
    (∀ c ∈ rollbackTrace s (some .invalidType), c = BCall.rollbackC) ∧
    (s.txn = none → rollbackTrace s (some .invalidType) = [] ∧
      rollbackTxn s (some .invalidType) = s) := by
  refine ⟨rfl, rfl, db_rollbackTxn s _, ?_, ?_⟩
  · cases h : s.txn <;> simp [rollbackTrace, h]
  · intro h
    simp [rollbackTrace, rollbackTxn, h]

/-- Witness for C6's amended statement on a fresh batch. -/
theorem absent_value_rejection_witness :
    rollbackTrace ⟨[], none⟩ (some .invalidType) = [] ∧
    rollbackTxn ⟨[], none⟩ (some .invalidType) = ⟨[], none⟩ :=
  (absent_value_rejection_amended [] "k" true .ok ⟨[], none⟩).2.2.2.2 rfl

/-- C8: a batch whose transaction is finished (committed or rolled back,
both leaving it in the done status) returns an error from every
subsequent Put, Delete, or Commit, whatever the injected outcomes — a
finished batch never silently accepts further operations. -/
theorem finished_batch_rejects_operations (db view : Table) (k : String)
    (v : Option Val) (beginOk commitOk : Bool) (x : ExecOutcome) :
    (∃ e s2 tr, batch.Put beginOk x ⟨db, some ⟨view, .done⟩⟩ k v = .ret (some e) s2 tr) ∧
    (∃ e s2 tr, batch.Delete beginOk x ⟨db, some ⟨view, .done⟩⟩ k = .ret (some e) s2 tr) ∧
    (batch.Commit commitOk ⟨db, some ⟨view, .done⟩⟩).1.isSome = true := by
  refine ⟨?_, ⟨.txDone, _, _, rfl⟩, rfl⟩
  cases v with
  | none => exact ⟨.invalidType, _, _, rfl⟩
  | some v2 => exact ⟨.txDone, _, _, rfl⟩

/-- C10: both the facade's Put and a batch Put report InvalidValue
exactly when the value is absent (the Go nil slice), whatever the
injected backend outcomes; and a present empty byte sequence is accepted
as a valid write — the put statement is executed on it without error. -/
theorem invalid_value_iff_absent (t : Table) (s : BatchState) (k : String)
    (v : Option Val) (beginOk : Bool) (x : ExecOutcome) :
    ((Datastore.Put t k v).err = some .invalidType ↔ v = none) ∧
    ((∃ s2 tr, batch.Put beginOk x s k v = .ret (some .invalidType) s2 tr) ↔ v = none) ∧
    Datastore.Put t k (some []) = ⟨none, execPut t k [], [.execPutC k []]⟩ := by
  obtain ⟨db, txn⟩ := s
  refine ⟨?_, ?_, rfl⟩
  · cases v <;> simp [Datastore.Put]
  · constructor
    · rintro ⟨s2, tr, h⟩
      cases v with
      | none => rfl
      | some v2 =>
        exfalso
        rcases txn with _ | ⟨view, st⟩ <;> cases beginOk <;> cases x <;> (try cases st) <;>
          simp_all [batch.Put, GetTransaction, rollbackTxn, rollbackTrace, rollbackForPanic]
    · rintro rfl
      exact ⟨_, _, rfl⟩

/-- Witness for C10 at a concrete absent-value Put. -/
theorem invalid_value_iff_absent_witness :
    (Datastore.Put [] "k" none).err = some .invalidType :=
  ((invalid_value_iff_absent [] ⟨[], none⟩ "k" none true .ok).1).mpr rfl

end SqlDs
